import Mathlib

/-!
Verification of the WhisperTranscriber audio segmentation and dispatch
pipeline (whisper_transcriber.cc / whisper_transcriber.h).

The embedding models:
 * the PCM16 byte codec used by ProcessAudioBuffer (lines 362-401) and by the
   dispatched task in RunProcessingThread (lines 216-224);
 * the voice-activity segmenter state machine of ProcessAudioBuffer
   (lines 371-463), including the accumulator flush policy;
 * handleOverflow (lines 466-473);
 * TranscribeAudioNonBlocking (lines 64-197): single-flight guard and input
   validation;
 * RunProcessingThread (lines 199-251): the consumer loop return value.

The AudioRingBuffer and SilenceFinder classes are declared in headers that are
not part of this repository snapshot; where they are needed they are modelled
from the spec (sections 4.1 and 4.2), as marked in the doc comments.

Machine floats are modelled by exact rationals.  The amplitude thresholds
0.1f, 1.2f and 0.8f are modelled by the decimal rationals 1/10, 12/10, 8/10;
the only comparisons the code performs with them have the shape
x > c * x for an integer-valued amplitude x, whose outcome agrees for the
float values and their decimal readings (both products lie strictly between
0 and x for x > 0).  PCM sample normalization sample / 32768.0f is exact in
binary32 for every int16 sample, so the rational model loses nothing.
-/

namespace WhisperSpec

/-- Constants from whisper_transcriber.h line 53: 16 kHz sample rate. -/
def kSampleRate : ℕ := 16000

/-- Constant from whisper_transcriber.h line 56. -/
def kTargetDurationSeconds : ℕ := 3

/-- Constant from whisper_transcriber.h line 57: ring buffer growth increment in bytes. -/
def kRingBufferSizeIncrement : ℕ := kSampleRate * kTargetDurationSeconds * 2 * 10

/-- Constant from whisper_transcriber.h line 59: target segment size in bytes. -/
def kTargetSamples : ℕ := kSampleRate * 12 * 2

/-- Constant from whisper_transcriber.h line 60: silence threshold for segment end. -/
def kSilenceSamples : ℕ := 16000

/-- Cast of an unsigned value to int16_t with two's-complement wrap, as performed
by the C assignment `int16_t sample = (int16_t)(buf[i]) | ((int16_t)(buf[i+1]) << 8)`. -/
def toInt16 (n : ℕ) : ℤ :=
  if n % 65536 < 32768 then ((n % 65536 : ℕ) : ℤ) else ((n % 65536 : ℕ) : ℤ) - 65536

/-- Little-endian PCM16 decode of one byte pair, mirroring
`(int16_t)(localAudioBuffer[i]) | ((int16_t)(localAudioBuffer[i + 1]) << 8)`
(whisper_transcriber.cc lines 222 and 367). -/
def decodeSampleLE (lo hi : ℕ) : ℤ := toInt16 (lo ||| (hi <<< 8))

/-- Decode a byte stream two bytes per sample, mirroring the loops at
whisper_transcriber.cc lines 366-369 and 220-224.  A trailing odd byte is
dropped (the C loop would read past the end; callers pass even sizes). -/
def bytePairsToInt16 : List ℕ → List ℤ
  | lo :: hi :: rest => decodeSampleLE lo hi :: bytePairsToInt16 rest
  | _ => []

/-- Low byte of an int16 sample, mirroring `sample & 0xFF`
(whisper_transcriber.cc line 399); two's-complement bit pattern. -/
def byteLo (v : ℤ) : ℕ := (v % 65536).toNat % 256

/-- High byte of an int16 sample, mirroring `(sample >> 8) & 0xFF`
(whisper_transcriber.cc line 400); for int16 values the arithmetic shift and
mask agree with dividing the two's-complement pattern by 256. -/
def byteHi (v : ℤ) : ℕ := (v % 65536).toNat / 256 % 256

/-- Re-encode int16 samples to bytes, mirroring the loop at
whisper_transcriber.cc lines 398-401. -/
def int16ToBytes : List ℤ → List ℕ
  | [] => []
  | v :: rest => byteLo v :: byteHi v :: int16ToBytes rest

/-- The `currentBuffer` built by ProcessAudioBuffer (lines 363-369 and 396-401):
decode the incoming playout bytes to int16 and re-encode them. -/
def reencode (block : List ℕ) : List ℕ := int16ToBytes (bytePairsToInt16 block)

/-- Constant from whisper_transcriber.cc line 372 (0.1f). -/
def relativeThreshold : ℚ := 1 / 10

/-- Constant from whisper_transcriber.cc line 376 (relativeThreshold * 1.2f). -/
def voiceStartThreshold : ℚ := relativeThreshold * (12 / 10)

/-- Constant from whisper_transcriber.cc line 377 (relativeThreshold * 0.8f). -/
def voiceEndThreshold : ℚ := relativeThreshold * (8 / 10)

/-- Voice decision of ProcessAudioBuffer lines 382-393.  The average amplitude
is the `SilenceFinder.avgAmplitude` computed from the block; the SilenceFinder
source is not in this repository, so following spec section 4.2 the amplitude
is an input of the model (a nonnegative integral average of int16 amplitudes,
cast to double by the code).  When it is zero `voicePresent` keeps its
initialisation `false`; otherwise the hysteresis comparison of lines 388-392
runs. -/
def voicePresentCalc (inVoiceSegment : Bool) (avgAmplitude : ℕ) : Bool :=
  if avgAmplitude = 0 then
    false
  else if inVoiceSegment = false then
    decide (voiceStartThreshold * (avgAmplitude : ℚ) < (avgAmplitude : ℚ))
  else
    decide (voiceEndThreshold * (avgAmplitude : ℚ) < (avgAmplitude : ℚ))

/-- The mutable state of WhisperTranscriber touched by ProcessAudioBuffer and
handleOverflow: the segmenter fields (whisper_transcriber.h lines 78-80), the
accumulator (line 63), the overflow counter (line 64) and the ring buffer
(line 46), the latter modelled from the spec as its byte content plus its
capacity. -/
structure TranscriberState where
  inVoiceSegment : Bool
  samplesSinceVoiceStart : ℕ
  silentSamplesCount : ℕ
  accumulatedByteBuffer : List ℕ
  ringData : List ℕ
  ringCapacity : ℕ
  overflowCount : ℕ
deriving DecidableEq, Repr

/-- Modelled from the spec (section 4.1): `AudioRingBuffer.write` appends the
bytes if they fit in the free capacity and fails without a partial write
otherwise.  The AudioRingBuffer source is not part of this repository
snapshot. -/
def ringWrite (cap : ℕ) (data bytes : List ℕ) : Option (List ℕ) :=
  if data.length + bytes.length ≤ cap then some (data ++ bytes) else none

/-- handleOverflow, whisper_transcriber.cc lines 466-473: increment the
overflow counter; past 10, grow the ring buffer by the fixed increment
(`increaseWith`, modelled from spec section 4.1 as a pure capacity increase)
and reset the counter. -/
def handleOverflow (s : TranscriberState) : TranscriberState :=
  let c := s.overflowCount + 1
  if 10 < c then
    { s with overflowCount := 0, ringCapacity := s.ringCapacity + kRingBufferSizeIncrement }
  else
    { s with overflowCount := c }

/-- The `if (!_audioBuffer.write(...)) handleOverflow();` pattern of
whisper_transcriber.cc lines 417-420 and 447-450. -/
def attemptWrite (s : TranscriberState) (bytes : List ℕ) : TranscriberState :=
  match ringWrite s.ringCapacity s.ringData bytes with
  | some d => { s with ringData := d }
  | none => handleOverflow s

/-- Voiced branch of ProcessAudioBuffer, whisper_transcriber.cc lines 403-431.
Returns the new state and the byte payload of the ring-buffer write when one
was issued. -/
def voicedStep (s : TranscriberState) (cur : List ℕ) : TranscriberState × Option (List ℕ) :=
  let s1 := if s.inVoiceSegment = false then
      { s with inVoiceSegment := true, samplesSinceVoiceStart := 0 }
    else s
  let s2 := { s1 with
      silentSamplesCount := 0,
      accumulatedByteBuffer := s1.accumulatedByteBuffer ++ cur,
      samplesSinceVoiceStart := s1.samplesSinceVoiceStart + cur.length }
  if kTargetSamples ≤ s2.accumulatedByteBuffer.length then
    let payload := s2.accumulatedByteBuffer.take kTargetSamples
    let s3 := attemptWrite s2 payload
    if kTargetSamples < s3.accumulatedByteBuffer.length then
      let s4 := { s3 with accumulatedByteBuffer := s3.accumulatedByteBuffer.drop kTargetSamples }
      ({ s4 with samplesSinceVoiceStart := s4.accumulatedByteBuffer.length }, some payload)
    else
      ({ s3 with accumulatedByteBuffer := [], samplesSinceVoiceStart := 0 }, some payload)
  else
    (s2, none)

/-- Silent branch of ProcessAudioBuffer, whisper_transcriber.cc lines 432-463.
Returns the new state and the byte payload of the ring-buffer write when one
was issued. -/
def silentStep (s : TranscriberState) (cur : List ℕ) : TranscriberState × Option (List ℕ) :=
  let s1 := { s with silentSamplesCount := s.silentSamplesCount + cur.length }
  if s1.inVoiceSegment = true ∧ kSilenceSamples ≤ s1.silentSamplesCount then
    let s2 := { s1 with inVoiceSegment := false }
    if kTargetSamples ≤ s2.accumulatedByteBuffer.length ∨
        kSampleRate * 2 ≤ s2.accumulatedByteBuffer.length then
      let samplesTo := min s2.accumulatedByteBuffer.length kTargetSamples
      let payload := s2.accumulatedByteBuffer.take samplesTo
      let s3 := attemptWrite s2 payload
      if samplesTo < s3.accumulatedByteBuffer.length then
        let s4 := { s3 with accumulatedByteBuffer := s3.accumulatedByteBuffer.drop samplesTo }
        ({ s4 with samplesSinceVoiceStart := s4.accumulatedByteBuffer.length,
                   silentSamplesCount := 0 }, some payload)
      else
        ({ s3 with accumulatedByteBuffer := [], samplesSinceVoiceStart := 0,
                   silentSamplesCount := 0 }, some payload)
    else
      ({ s2 with silentSamplesCount := 0 }, none)
  else
    (s1, none)

/-- ProcessAudioBuffer, whisper_transcriber.cc lines 362-464, as a function of
the transcriber state, the incoming playout bytes and the block average
amplitude reported by the SilenceFinder. -/
def ProcessAudioBuffer (s : TranscriberState) (block : List ℕ) (avgAmplitude : ℕ) :
    TranscriberState × Option (List ℕ) :=
  let cur := reencode block
  if voicePresentCalc s.inVoiceSegment avgAmplitude = true then
    voicedStep s cur
  else
    silentStep s cur

/-- Invalid-sample test of TranscribeAudioNonBlocking line 101:
`!(sample == sample) || std::abs(sample) > 1.0f`.  A float sample is modelled
as `Option ℚ`, with `none` standing for NaN (the one value for which
`sample == sample` is false). -/
def sampleInvalid (x : Option ℚ) : Bool :=
  match x with
  | none => true
  | some q => decide ((1 : ℚ) < |q|)

/-- Observable outcome of one TranscribeAudioNonBlocking call: the returned
Bool, the value of `_processingActive` on exit, and whether `whisper_full`
was invoked. -/
structure TranscribeOutcome where
  retval : Bool
  processingActiveAfter : Bool
  whisperFullCalled : Bool
deriving DecidableEq, Repr

/-- TranscribeAudioNonBlocking, whisper_transcriber.cc lines 64-197, as a
function of the guard value seen by the entry `exchange(true)`, the validity
of `_whisperContext`, the float input, and the result code that
`whisper_full` would return.  The second `_whisperContext` test mirrors the
early return at lines 145-148, which does not reset `_processingActive`; it
sits in the else-chain after the first context test, so it can never fire. -/
def TranscribeAudioNonBlocking (processingActive ctxValid : Bool)
    (pcmf32 : List (Option ℚ)) (whisperResult : ℤ) : TranscribeOutcome :=
  if processingActive = true then ⟨false, true, false⟩
  else if ctxValid = false then ⟨false, false, false⟩
  else if pcmf32.length = 0 then ⟨false, false, false⟩
  else if pcmf32.length < kSampleRate ∨ kTargetSamples < pcmf32.length then ⟨false, false, false⟩
  else if pcmf32.any sampleInvalid = true then ⟨false, false, false⟩
  else if ctxValid = false then ⟨false, true, false⟩
  else ⟨decide (whisperResult = 0), false, true⟩

/-- PCM16 sample normalization of the dispatched task,
whisper_transcriber.cc line 223: `pcmf32.push_back(sample / 32768.0f)`.
The division is exact in binary32 for every int16 value. -/
def normalizeSample (v : ℤ) : ℚ := (v : ℚ) / 32768

/-- Float conversion performed by the dispatched task,
whisper_transcriber.cc lines 216-224. -/
def pcmf32FromBytes (bytes : List ℕ) : List ℚ :=
  (bytePairsToInt16 bytes).map normalizeSample

/-- Follows the spec wording of section 4.5 for the refinement comparison: a
sample is two bytes, little-endian, read as a signed 16-bit integer. -/
def specSampleLE (lo hi : ℕ) : ℤ :=
  if lo + 256 * hi < 32768 then (lo + 256 * hi : ℕ) else ((lo + 256 * hi : ℕ) : ℤ) - 65536

/-- RunProcessingThread, whisper_transcriber.cc lines 199-251, under the
sequential (no concurrent producer) semantics: the while loop at line 202
drains the whole ring content in one read and dispatches it as a task, then
finds the buffer empty and exits; with the running flag clear it exits
immediately.  Returns the remaining ring content, the dispatched blocks, and
the function's return value, which line 250 fixes to `true` on every path. -/
def RunProcessingThread (running : Bool) (ring : List ℕ) :
    List ℕ × List (List ℕ) × Bool :=
  if running = true ∧ 0 < ring.length then ([], [ring], true) else (ring, [], true)

/-- A byte or-ed with a shifted byte is their positional sum: the two operands
of the decode expression have disjoint bit support. -/
theorem lor_byte (lo hi : ℕ) (h : lo < 256) : lo ||| (hi <<< 8) = lo + 256 * hi := by
  apply Nat.eq_of_testBit_eq
  intro i
  rw [Nat.testBit_lor, Nat.testBit_shiftLeft]
  rcases lt_or_ge i 8 with h8 | h8
  · have hd : decide (i ≥ 8) = false := decide_eq_false (by omega)
    rw [hd, Bool.false_and, Bool.or_false]
    rw [Nat.testBit_to_div_mod, Nat.testBit_to_div_mod]
    have he : i + 1 + (7 - i) = 8 := by omega
    have hsplit : 256 * hi = 2 ^ i * (2 * (2 ^ (7 - i) * hi)) := by
      calc 256 * hi = 2 ^ 8 * hi := by norm_num
        _ = 2 ^ (i + 1 + (7 - i)) * hi := by rw [he]
        _ = (2 ^ i * (2 ^ 1 * 2 ^ (7 - i))) * hi := by rw [pow_add, pow_add]; ring
        _ = 2 ^ i * (2 * (2 ^ (7 - i) * hi)) := by ring
    rw [hsplit, Nat.add_mul_div_left _ _ (Nat.pos_pow_of_pos i (by norm_num)),
      Nat.add_mul_mod_self_left]
  · have hd : decide (i ≥ 8) = true := decide_eq_true (by omega)
    rw [hd, Bool.true_and]
    have hlo : lo.testBit i = false :=
      Nat.testBit_eq_false_of_lt (lt_of_lt_of_le h (by
        calc (256 : ℕ) = 2 ^ 8 := by norm_num
          _ ≤ 2 ^ i := Nat.pow_le_pow_right (by norm_num) h8))
    rw [hlo, Bool.false_or]
    rw [Nat.testBit_to_div_mod, Nat.testBit_to_div_mod]
    have hpow : (2 : ℕ) ^ i = 2 ^ 8 * 2 ^ (i - 8) := by
      rw [← pow_add]
      congr 1
      omega
    rw [hpow, ← Nat.div_div_eq_div_mul]
    have h256 : (256 : ℕ) * hi = 2 ^ 8 * hi := by norm_num
    rw [h256, Nat.add_mul_div_left _ _ (by norm_num : (0:ℕ) < 2 ^ 8),
      Nat.div_eq_of_lt (by omega : lo < 2 ^ 8), Nat.zero_add]

/-- The code's cast-and-or decode of a little-endian byte pair agrees with the
spec reading of a signed 16-bit little-endian sample. -/
theorem decodeSampleLE_eq_spec (lo hi : ℕ) (hlo : lo < 256) (hhi : hi < 256) :
    decodeSampleLE lo hi = specSampleLE lo hi := by
  unfold decodeSampleLE specSampleLE toInt16
  rw [lor_byte lo hi hlo]
  have hmod : (lo + 256 * hi) % 65536 = lo + 256 * hi := Nat.mod_eq_of_lt (by omega)
  rw [hmod]

@[simp] theorem int16ToBytes_length : ∀ l : List ℤ, (int16ToBytes l).length = 2 * l.length
  | [] => rfl
  | v :: rest => by
      simp [int16ToBytes, int16ToBytes_length rest]
      ring

@[simp] theorem bytePairsToInt16_length :
    ∀ bs : List ℕ, (bytePairsToInt16 bs).length = bs.length / 2
  | [] => rfl
  | [_] => by simp [bytePairsToInt16]
  | lo :: hi :: rest => by
      simp [bytePairsToInt16, bytePairsToInt16_length rest]
      omega

@[simp] theorem reencode_length (bs : List ℕ) : (reencode bs).length = 2 * (bs.length / 2) := by
  simp [reencode]

@[simp] theorem handleOverflow_inVoice (s : TranscriberState) :
    (handleOverflow s).inVoiceSegment = s.inVoiceSegment := by
  simp only [handleOverflow]
  split <;> rfl

@[simp] theorem handleOverflow_silent (s : TranscriberState) :
    (handleOverflow s).silentSamplesCount = s.silentSamplesCount := by
  simp only [handleOverflow]
  split <;> rfl

@[simp] theorem handleOverflow_samples (s : TranscriberState) :
    (handleOverflow s).samplesSinceVoiceStart = s.samplesSinceVoiceStart := by
  simp only [handleOverflow]
  split <;> rfl

@[simp] theorem handleOverflow_acc (s : TranscriberState) :
    (handleOverflow s).accumulatedByteBuffer = s.accumulatedByteBuffer := by
  simp only [handleOverflow]
  split <;> rfl

/-- attemptWrite written as a plain conditional. -/
theorem attemptWrite_eq (s : TranscriberState) (b : List ℕ) :
    attemptWrite s b =
      if s.ringData.length + b.length ≤ s.ringCapacity then { s with ringData := s.ringData ++ b }
      else handleOverflow s := by
  unfold attemptWrite ringWrite
  split_ifs <;> rfl

@[simp] theorem attemptWrite_inVoice (s : TranscriberState) (b : List ℕ) :
    (attemptWrite s b).inVoiceSegment = s.inVoiceSegment := by
  rw [attemptWrite_eq]
  split_ifs <;> simp

@[simp] theorem attemptWrite_silent (s : TranscriberState) (b : List ℕ) :
    (attemptWrite s b).silentSamplesCount = s.silentSamplesCount := by
  rw [attemptWrite_eq]
  split_ifs <;> simp

@[simp] theorem attemptWrite_samples (s : TranscriberState) (b : List ℕ) :
    (attemptWrite s b).samplesSinceVoiceStart = s.samplesSinceVoiceStart := by
  rw [attemptWrite_eq]
  split_ifs <;> simp

@[simp] theorem attemptWrite_acc (s : TranscriberState) (b : List ℕ) :
    (attemptWrite s b).accumulatedByteBuffer = s.accumulatedByteBuffer := by
  rw [attemptWrite_eq]
  split_ifs <;> simp

/-- Capacity can change in attemptWrite only through the handleOverflow growth
branch, which requires ten prior uncompensated overflows and resets the
counter. -/
theorem attemptWrite_capacity (s : TranscriberState) (b : List ℕ) :
    (attemptWrite s b).ringCapacity = s.ringCapacity ∨
      ((attemptWrite s b).ringCapacity = s.ringCapacity + kRingBufferSizeIncrement ∧
        (attemptWrite s b).overflowCount = 0 ∧ 10 ≤ s.overflowCount) := by
  rw [attemptWrite_eq]
  split_ifs with hw
  · left
    rfl
  · simp only [handleOverflow]
    split_ifs with hc
    · right
      refine ⟨rfl, rfl, ?_⟩
      omega
    · left
      rfl

@[simp] theorem voicePresentCalc_zero (v : Bool) : voicePresentCalc v 0 = false := rfl

/-- With a present voice decision, ProcessAudioBuffer runs its voiced branch. -/
theorem processAudio_voiced (s : TranscriberState) (block : List ℕ) (amp : ℕ)
    (h : voicePresentCalc s.inVoiceSegment amp = true) :
    ProcessAudioBuffer s block amp = voicedStep s (reencode block) := by
  simp [ProcessAudioBuffer, h]

/-- With an absent voice decision, ProcessAudioBuffer runs its silent branch. -/
theorem processAudio_silent (s : TranscriberState) (block : List ℕ) (amp : ℕ)
    (h : voicePresentCalc s.inVoiceSegment amp = false) :
    ProcessAudioBuffer s block amp = silentStep s (reencode block) := by
  simp [ProcessAudioBuffer, h]

/-- The voiced branch always leaves the segmenter in the Voice state. -/
theorem voicedStep_inVoice (s : TranscriberState) (cur : List ℕ) :
    (voicedStep s cur).1.inVoiceSegment = true := by
  simp only [voicedStep]
  split_ifs <;> simp_all

/-- The voiced branch always clears the silence counter (line 408). -/
theorem voicedStep_silent (s : TranscriberState) (cur : List ℕ) :
    (voicedStep s cur).1.silentSamplesCount = 0 := by
  simp only [voicedStep]
  split_ifs <;> simp_all

/-- Continuous-speech flush (lines 412-431): when the accumulated bytes reach
the target, the write payload is exactly the first kTargetSamples bytes and
the remainder is kept. -/
theorem voicedStep_flush (s : TranscriberState) (cur : List ℕ)
    (h : kTargetSamples ≤ s.accumulatedByteBuffer.length + cur.length) :
    (voicedStep s cur).2 = some ((s.accumulatedByteBuffer ++ cur).take kTargetSamples) ∧
      (voicedStep s cur).1.accumulatedByteBuffer =
        (s.accumulatedByteBuffer ++ cur).drop kTargetSamples := by
  have hlen : kTargetSamples ≤ (s.accumulatedByteBuffer ++ cur).length := by
    rw [List.length_append]
    omega
  by_cases hvs : s.inVoiceSegment = false
  · simp only [voicedStep, if_pos hvs]
    rw [if_pos (by simpa using hlen)]
    simp only [attemptWrite_acc]
    split_ifs with h2
    · simp
    · refine ⟨by simp, ?_⟩
      simp only []
      rw [eq_comm, List.drop_eq_nil_iff]
      simp at h2 ⊢
      omega
  · simp only [voicedStep, if_neg hvs]
    rw [if_pos (by simpa using hlen)]
    simp only [attemptWrite_acc]
    split_ifs with h2
    · simp
    · refine ⟨by simp, ?_⟩
      simp only []
      rw [eq_comm, List.drop_eq_nil_iff]
      simp at h2 ⊢
      omega

/-- State of the voice flag after the silent branch: it stays as it was unless
the transcriber was in a voice segment and the silence counter, incremented by
the block's byte count, reached the silence threshold. -/
theorem silentStep_inVoice (s : TranscriberState) (cur : List ℕ) :
    (silentStep s cur).1.inVoiceSegment =
      (s.inVoiceSegment && decide (s.silentSamplesCount + cur.length < kSilenceSamples)) := by
  simp only [silentStep]
  split_ifs with h1 h2 h3 <;> simp_all

/-- Debounced segment end (lines 435-462): the segment closes, the silence
counter resets, and the accumulated audio is flushed with payload
min(length, kTargetSamples) exactly when at least one second of audio
(kSampleRate * 2 bytes) had accumulated; below the floor nothing is flushed
and the accumulator keeps its contents. -/
theorem silentStep_transition (s : TranscriberState) (cur : List ℕ)
    (hv : s.inVoiceSegment = true)
    (hs : kSilenceSamples ≤ s.silentSamplesCount + cur.length) :
    (silentStep s cur).1.inVoiceSegment = false ∧
      (silentStep s cur).1.silentSamplesCount = 0 ∧
      (kSampleRate * 2 ≤ s.accumulatedByteBuffer.length →
        (silentStep s cur).2 =
          some (s.accumulatedByteBuffer.take
            (min s.accumulatedByteBuffer.length kTargetSamples))) ∧
      (s.accumulatedByteBuffer.length < kSampleRate * 2 →
        (silentStep s cur).2 = none ∧
        (silentStep s cur).1.accumulatedByteBuffer = s.accumulatedByteBuffer) := by
  simp only [silentStep, hv]
  rw [if_pos (by constructor <;> simp [hs])]
  by_cases hfl : kTargetSamples ≤ s.accumulatedByteBuffer.length ∨
      kSampleRate * 2 ≤ s.accumulatedByteBuffer.length
  · rw [if_pos (by simpa using hfl)]
    simp only [attemptWrite_acc]
    have hst : kSampleRate * 2 ≤ s.accumulatedByteBuffer.length := by
      rcases hfl with hfl | hfl
      · simp only [kSampleRate, kTargetSamples] at hfl ⊢
        omega
      · exact hfl
    split_ifs with h2
    · refine ⟨by simp, by simp, fun _ => by simp, fun hlt => absurd hst (by omega)⟩
    · refine ⟨by simp, by simp, fun _ => by simp, fun hlt => absurd hst (by omega)⟩
  · rw [if_neg (by simpa using hfl)]
    push_neg at hfl
    refine ⟨by simp, by simp, fun hge => absurd hge (by omega), fun _ => ⟨by simp, by simp⟩⟩

theorem capacity_goal_of_attempt (t : TranscriberState) (b : List ℕ) (cap cnt : ℕ)
    (hcap : t.ringCapacity = cap) (hcnt : t.overflowCount = cnt) :
    (attemptWrite t b).ringCapacity = cap ∨
      ((attemptWrite t b).ringCapacity = cap + kRingBufferSizeIncrement ∧
        (attemptWrite t b).overflowCount = 0 ∧ 10 ≤ cnt) := by
  subst hcap hcnt
  exact attemptWrite_capacity t b

/-- The voiced branch changes ring capacity only through its handleOverflow
call. -/
theorem voicedStep_capacity (s : TranscriberState) (cur : List ℕ) :
    (voicedStep s cur).1.ringCapacity = s.ringCapacity ∨
      ((voicedStep s cur).1.ringCapacity = s.ringCapacity + kRingBufferSizeIncrement ∧
        (voicedStep s cur).1.overflowCount = 0 ∧ 10 ≤ s.overflowCount) := by
  simp only [voicedStep]
  split_ifs <;>
    first
      | (left; rfl)
      | exact capacity_goal_of_attempt _ _ _ _ rfl rfl

/-- The silent branch changes ring capacity only through its handleOverflow
call. -/
theorem silentStep_capacity (s : TranscriberState) (cur : List ℕ) :
    (silentStep s cur).1.ringCapacity = s.ringCapacity ∨
      ((silentStep s cur).1.ringCapacity = s.ringCapacity + kRingBufferSizeIncrement ∧
        (silentStep s cur).1.overflowCount = 0 ∧ 10 ≤ s.overflowCount) := by
  simp only [silentStep]
  split_ifs <;>
    first
      | (left; rfl)
      | exact capacity_goal_of_attempt _ _ _ _ rfl rfl

/-- Below eleven accumulated overflows, handleOverflow only counts. -/
theorem handleOverflow_iterate (s : TranscriberState) (h : s.overflowCount = 0) :
    ∀ k, k ≤ 10 → handleOverflow^[k] s = { s with overflowCount := k } := by
  intro k
  induction k with
  | zero =>
      intro _
      cases s
      simp_all
  | succ k ih =>
      intro hk
      rw [Function.iterate_succ_apply', ih (by omega)]
      simp only [handleOverflow]
      rw [if_neg (by simp; omega)]

/-- Entering the voiced branch from Silence discards the previous value of
samplesSinceVoiceStart (line 406 resets it before the block is accumulated). -/
theorem voicedStep_reset (s : TranscriberState) (cur : List ℕ)
    (h : s.inVoiceSegment = false) :
    voicedStep s cur = voicedStep { s with samplesSinceVoiceStart := 0 } cur := by
  have h2 : ({ s with samplesSinceVoiceStart := 0 } : TranscriberState).inVoiceSegment = false := h
  simp [voicedStep, h, h2]

/-- Claim C1: a block processed while in Silence whose average amplitude is
nonzero and exceeds the start threshold moves the segmenter to Voice, leaves
silentSamplesCount cleared, and restarts samplesSinceVoiceStart from zero (the
result is the same as if the counter had been zero on entry; the counter then
tracks the bytes accumulated from this block on). -/
theorem spec_C1_silence_to_voice (s : TranscriberState) (block : List ℕ) (amp : ℕ)
    (hv : s.inVoiceSegment = false) (hne : amp ≠ 0)
    (hth : voiceStartThreshold * (amp : ℚ) < (amp : ℚ)) :
    (ProcessAudioBuffer s block amp).1.inVoiceSegment = true ∧
      (ProcessAudioBuffer s block amp).1.silentSamplesCount = 0 ∧
      ProcessAudioBuffer s block amp =
        ProcessAudioBuffer { s with samplesSinceVoiceStart := 0 } block amp := by
  have hvp : voicePresentCalc s.inVoiceSegment amp = true := by
    rw [hv]
    unfold voicePresentCalc
    rw [if_neg hne, if_pos rfl]
    exact decide_eq_true hth
  have hvp2 : voicePresentCalc
      ({ s with samplesSinceVoiceStart := 0 } : TranscriberState).inVoiceSegment amp = true := hvp
  refine ⟨?_, ?_, ?_⟩
  · rw [processAudio_voiced s block amp hvp]
    exact voicedStep_inVoice ..
  · rw [processAudio_voiced s block amp hvp]
    exact voicedStep_silent ..
  · rw [processAudio_voiced s block amp hvp, processAudio_voiced _ block amp hvp2]
    exact voicedStep_reset s (reencode block) hv

/-- Witness for claim C1 at a concrete Silence state and a nonzero-amplitude
block. -/
theorem spec_C1_silence_to_voice_witness :
    ((⟨false, 3, 5, [], [], 960000, 0⟩ : TranscriberState).inVoiceSegment = false ∧
      (5 : ℕ) ≠ 0 ∧ voiceStartThreshold * ((5 : ℕ) : ℚ) < ((5 : ℕ) : ℚ)) ∧
    ((ProcessAudioBuffer ⟨false, 3, 5, [], [], 960000, 0⟩ [1, 2] 5).1.inVoiceSegment = true ∧
      (ProcessAudioBuffer ⟨false, 3, 5, [], [], 960000, 0⟩ [1, 2] 5).1.silentSamplesCount = 0 ∧
      ProcessAudioBuffer ⟨false, 3, 5, [], [], 960000, 0⟩ [1, 2] 5 =
        ProcessAudioBuffer ⟨false, 0, 5, [], [], 960000, 0⟩ [1, 2] 5) :=
  ⟨⟨rfl, by decide, by norm_num [voiceStartThreshold, relativeThreshold]⟩,
    spec_C1_silence_to_voice ⟨false, 3, 5, [], [], 960000, 0⟩ [1, 2] 5 rfl (by decide)
      (by norm_num [voiceStartThreshold, relativeThreshold])⟩

/-- Claim C2 counterexample: a zero-amplitude block does flip the state when
the transcriber is in Voice and the silence counter is about to reach the
threshold.  In the code a zero average amplitude leaves voicePresent false, so
the block is handled by the silence branch, which counts it toward the silence
threshold and here closes the segment: the claim that the prior Voice state is
preserved fails at this input. -/
theorem spec_C2_counterexample :
    (ProcessAudioBuffer ⟨true, 0, 15998, [], [], 960000, 0⟩ [0, 0] 0).1.inVoiceSegment = false := by
  decide

/-- Claim C2 (amended): a block with average amplitude exactly zero is treated
as voice-absent, not as indeterminate.  A prior Silence state remains Silence;
a prior Voice state remains Voice exactly while the silence counter
(incremented by the block's byte count) stays below kSilenceSamples, and
transitions to Silence once it reaches it. -/
theorem spec_C2_zero_amplitude (s : TranscriberState) (block : List ℕ) :
    (ProcessAudioBuffer s block 0).1.inVoiceSegment =
      (s.inVoiceSegment &&
        decide (s.silentSamplesCount + (reencode block).length < kSilenceSamples)) := by
  rw [processAudio_silent s block 0 (by simp)]
  exact silentStep_inVoice ..

/-- Claim C3 counterexample: a single quiet block can end a voice segment.
The silence counter counts bytes, two per sample, so this single
16000-byte (8000-sample, half-second) zero-amplitude block reaches
kSilenceSamples on its own and closes the segment, against the claim that a
single quiet block never does and that the threshold corresponds to one second
of samples. -/
theorem spec_C3_counterexample :
    (ProcessAudioBuffer ⟨true, 0, 0, [], [], 960000, 0⟩
        (List.replicate 16000 0) 0).1.inVoiceSegment = false := by
  rw [processAudio_silent _ _ _ (by simp)]
  have hlen : (reencode (List.replicate 16000 (0:ℕ))).length = 16000 := by
    rw [reencode_length, List.length_replicate]
  rw [silentStep_inVoice, hlen]
  norm_num [kSilenceSamples]

/-- Claim C3 (amended): while in Voice, the segmenter transitions to Silence
on a block only when silentSamplesCount, incremented by the block's byte count
(two bytes per sample, so 16000 corresponds to half a second at 16 kHz),
has reached at least kSilenceSamples = 16000; consequently a single quiet
block of fewer than 16000 bytes arriving with the counter at zero never ends
the segment. -/
theorem spec_C3_debounce (s : TranscriberState) (block : List ℕ) (amp : ℕ) :
    (s.inVoiceSegment = true → (ProcessAudioBuffer s block amp).1.inVoiceSegment = false →
      kSilenceSamples ≤ s.silentSamplesCount + (reencode block).length) ∧
    (s.inVoiceSegment = true → s.silentSamplesCount = 0 →
      (reencode block).length < kSilenceSamples →
      (ProcessAudioBuffer s block amp).1.inVoiceSegment = true) := by
  by_cases hvp : voicePresentCalc s.inVoiceSegment amp = true
  · rw [processAudio_voiced s block amp hvp]
    constructor
    · intro _ hfalse
      rw [voicedStep_inVoice] at hfalse
      exact absurd hfalse (by simp)
    · intro _ _ _
      exact voicedStep_inVoice ..
  · rw [processAudio_silent s block amp (by simpa using hvp)]
    rw [silentStep_inVoice]
    constructor
    · intro hv hfalse
      rw [hv] at hfalse
      simp at hfalse
      simpa using hfalse
    · intro hv hz hlt
      rw [hv, hz]
      simpa using hlt

/-- Witness for claim C3 at a concrete voiced state and a small quiet block. -/
theorem spec_C3_debounce_witness :
    (ProcessAudioBuffer ⟨true, 0, 0, [], [], 960000, 0⟩ [9, 9] 0).1.inVoiceSegment = true :=
  (spec_C3_debounce ⟨true, 0, 0, [], [], 960000, 0⟩ [9, 9] 0).2 rfl rfl (by decide)

/-- Claim C4 counterexample: when a segment ends with fewer than one second of
accumulated audio, the trailing fragment is not discarded: nothing is flushed
and the accumulator still holds the fragment afterwards, against the claim
that it is discarded. -/
theorem spec_C4_counterexample :
    (ProcessAudioBuffer ⟨true, 0, 15998, [7, 7], [], 960000, 0⟩ [0, 0] 0).1.inVoiceSegment =
        false ∧
      (ProcessAudioBuffer ⟨true, 0, 15998, [7, 7], [], 960000, 0⟩ [0, 0] 0).2 = none ∧
      (ProcessAudioBuffer ⟨true, 0, 15998, [7, 7], [], 960000, 0⟩
          [0, 0] 0).1.accumulatedByteBuffer = [7, 7] := by
  decide

/-- Claim C4 (amended): at a debounced segment end, when at least one second
of audio (kSampleRate * 2 bytes) has accumulated, exactly
min(accumulated length, kTargetSamples) bytes are flushed to the ring buffer;
below that floor nothing is flushed and the fragment is retained in the
accumulator rather than discarded. -/
theorem spec_C4_segment_end (s : TranscriberState) (block : List ℕ) (amp : ℕ)
    (hv : s.inVoiceSegment = true)
    (hvp : voicePresentCalc s.inVoiceSegment amp = false)
    (hs : kSilenceSamples ≤ s.silentSamplesCount + (reencode block).length) :
    (ProcessAudioBuffer s block amp).1.inVoiceSegment = false ∧
      (kSampleRate * 2 ≤ s.accumulatedByteBuffer.length →
        (ProcessAudioBuffer s block amp).2 =
          some (s.accumulatedByteBuffer.take
            (min s.accumulatedByteBuffer.length kTargetSamples)) ∧
        ((ProcessAudioBuffer s block amp).2.getD []).length =
          min s.accumulatedByteBuffer.length kTargetSamples) ∧
      (s.accumulatedByteBuffer.length < kSampleRate * 2 →
        (ProcessAudioBuffer s block amp).2 = none ∧
        (ProcessAudioBuffer s block amp).1.accumulatedByteBuffer =
          s.accumulatedByteBuffer) := by
  rw [processAudio_silent s block amp hvp]
  obtain ⟨h1, _, h3, h4⟩ := silentStep_transition s (reencode block) hv hs
  refine ⟨h1, fun hge => ⟨h3 hge, ?_⟩, h4⟩
  rw [h3 hge]
  simp [List.length_take]

/-- Witness for claim C4 at a concrete segment end holding exactly one second
of accumulated audio. -/
theorem spec_C4_segment_end_witness :
    ((ProcessAudioBuffer ⟨true, 0, 15998, List.replicate 32000 5, [], 960000, 0⟩
        [0, 0] 0).1.inVoiceSegment = false ∧
      (kSampleRate * 2 ≤ (List.replicate 32000 (5:ℕ)).length →
        (ProcessAudioBuffer ⟨true, 0, 15998, List.replicate 32000 5, [], 960000, 0⟩ [0, 0] 0).2 =
          some ((List.replicate 32000 (5:ℕ)).take
            (min (List.replicate 32000 (5:ℕ)).length kTargetSamples)) ∧
        ((ProcessAudioBuffer ⟨true, 0, 15998, List.replicate 32000 5, [], 960000, 0⟩
            [0, 0] 0).2.getD []).length =
          min (List.replicate 32000 (5:ℕ)).length kTargetSamples) ∧
      ((List.replicate 32000 (5:ℕ)).length < kSampleRate * 2 →
        (ProcessAudioBuffer ⟨true, 0, 15998, List.replicate 32000 5, [], 960000, 0⟩ [0, 0] 0).2 =
          none ∧
        (ProcessAudioBuffer ⟨true, 0, 15998, List.replicate 32000 5, [], 960000, 0⟩
            [0, 0] 0).1.accumulatedByteBuffer = List.replicate 32000 5)) :=
  spec_C4_segment_end ⟨true, 0, 15998, List.replicate 32000 5, [], 960000, 0⟩ [0, 0] 0
    rfl rfl (by decide)

/-- Claim C5: whenever the accumulated buffer reaches kTargetSamples bytes on
a voiced block, the ring-buffer write carries exactly the first kTargetSamples
accumulated bytes and the accumulator keeps exactly the remainder
(accumulated plus block minus target) as the next accumulation base. -/
theorem spec_C5_target_flush (s : TranscriberState) (block : List ℕ) (amp : ℕ)
    (hvp : voicePresentCalc s.inVoiceSegment amp = true)
    (hlen : kTargetSamples ≤ s.accumulatedByteBuffer.length + (reencode block).length) :
    (ProcessAudioBuffer s block amp).2 =
        some ((s.accumulatedByteBuffer ++ reencode block).take kTargetSamples) ∧
      ((s.accumulatedByteBuffer ++ reencode block).take kTargetSamples).length =
        kTargetSamples ∧
      (ProcessAudioBuffer s block amp).1.accumulatedByteBuffer =
        (s.accumulatedByteBuffer ++ reencode block).drop kTargetSamples ∧
      (ProcessAudioBuffer s block amp).1.accumulatedByteBuffer.length =
        s.accumulatedByteBuffer.length + (reencode block).length - kTargetSamples := by
  rw [processAudio_voiced s block amp hvp]
  obtain ⟨h1, h2⟩ := voicedStep_flush s (reencode block) hlen
  refine ⟨h1, ?_, h2, ?_⟩
  · rw [List.length_take, List.length_append]
    omega
  · rw [h2]
    rw [List.length_drop, List.length_append]

/-- Witness for claim C5 at a concrete voiced state whose accumulated buffer
crosses the target with the incoming block. -/
theorem spec_C5_target_flush_witness :
    (voicePresentCalc
        (⟨true, 7, 0, List.replicate 383998 5, [], 960000, 0⟩ : TranscriberState).inVoiceSegment
        1 = true ∧
      kTargetSamples ≤
        (⟨true, 7, 0, List.replicate 383998 5, [], 960000,
          0⟩ : TranscriberState).accumulatedByteBuffer.length + (reencode [5, 0]).length) ∧
    ((ProcessAudioBuffer ⟨true, 7, 0, List.replicate 383998 5, [], 960000, 0⟩ [5, 0] 1).2 =
        some ((List.replicate 383998 (5:ℕ) ++ reencode [5, 0]).take kTargetSamples) ∧
      ((List.replicate 383998 (5:ℕ) ++ reencode [5, 0]).take kTargetSamples).length =
        kTargetSamples ∧
      (ProcessAudioBuffer ⟨true, 7, 0, List.replicate 383998 5, [], 960000, 0⟩
          [5, 0] 1).1.accumulatedByteBuffer =
        (List.replicate 383998 (5:ℕ) ++ reencode [5, 0]).drop kTargetSamples ∧
      (ProcessAudioBuffer ⟨true, 7, 0, List.replicate 383998 5, [], 960000, 0⟩
          [5, 0] 1).1.accumulatedByteBuffer.length =
        (⟨true, 7, 0, List.replicate 383998 5, [], 960000,
          0⟩ : TranscriberState).accumulatedByteBuffer.length + (reencode [5, 0]).length -
          kTargetSamples) := by
  have h1 : voicePresentCalc
      (⟨true, 7, 0, List.replicate 383998 5, [], 960000, 0⟩ : TranscriberState).inVoiceSegment
      1 = true := by
    norm_num [voicePresentCalc, voiceEndThreshold, relativeThreshold]
  have h2 : kTargetSamples ≤
      (⟨true, 7, 0, List.replicate 383998 5, [], 960000,
        0⟩ : TranscriberState).accumulatedByteBuffer.length + (reencode [5, 0]).length := by
    rw [show (⟨true, 7, 0, List.replicate 383998 5, [], 960000,
        0⟩ : TranscriberState).accumulatedByteBuffer = List.replicate 383998 5 from rfl,
      List.length_replicate, show (reencode [5, 0]).length = 2 from rfl]
    norm_num [kTargetSamples, kSampleRate]
  have h3 := spec_C5_target_flush ⟨true, 7, 0, List.replicate 383998 5, [], 960000, 0⟩ [5, 0] 1 h1 h2
  exact ⟨⟨h1, h2⟩, h3.1, h3.2.1, h3.2.2.1, h3.2.2.2⟩

/-- Claim C6: starting from a zero overflow counter, eleven consecutive
handleOverflow calls (one per overflow-signalling write) leave the capacity
grown by exactly kRingBufferSizeIncrement with the counter reset to zero,
while ten or fewer leave the capacity unchanged; and within
ProcessAudioBuffer the handleOverflow growth branch is the only way the ring
capacity changes. -/
theorem spec_C6_overflow_growth (s : TranscriberState) (h : s.overflowCount = 0) :
    (handleOverflow^[11] s).ringCapacity = s.ringCapacity + kRingBufferSizeIncrement ∧
      (handleOverflow^[11] s).overflowCount = 0 ∧
      (∀ k, k ≤ 10 → (handleOverflow^[k] s).ringCapacity = s.ringCapacity) ∧
      (∀ t : TranscriberState, ∀ block : List ℕ, ∀ amp : ℕ,
        (ProcessAudioBuffer t block amp).1.ringCapacity = t.ringCapacity ∨
          ((ProcessAudioBuffer t block amp).1.ringCapacity =
              t.ringCapacity + kRingBufferSizeIncrement ∧
            (ProcessAudioBuffer t block amp).1.overflowCount = 0 ∧
            10 ≤ t.overflowCount)) := by
  have h11 : handleOverflow^[11] s =
      { s with overflowCount := 0,
               ringCapacity := s.ringCapacity + kRingBufferSizeIncrement } := by
    have h10 := handleOverflow_iterate s h 10 (by norm_num)
    rw [show (11 : ℕ) = 10 + 1 from rfl, Function.iterate_succ_apply', h10]
    simp only [handleOverflow]
    rw [if_pos (by norm_num)]
  refine ⟨by rw [h11], by rw [h11], ?_, ?_⟩
  · intro k hk
    rw [handleOverflow_iterate s h k hk]
  · intro t block amp
    by_cases hvp : voicePresentCalc t.inVoiceSegment amp = true
    · rw [processAudio_voiced t block amp hvp]
      exact voicedStep_capacity ..
    · rw [processAudio_silent t block amp (by simpa using hvp)]
      exact silentStep_capacity ..

/-- Witness for claim C6 at the freshly constructed transcriber state. -/
theorem spec_C6_overflow_growth_witness :
    ((⟨false, 0, 0, [], [], 960000, 0⟩ : TranscriberState).overflowCount = 0) ∧
    (handleOverflow^[11] ⟨false, 0, 0, [], [], 960000, 0⟩).ringCapacity =
      960000 + kRingBufferSizeIncrement ∧
    (handleOverflow^[11] ⟨false, 0, 0, [], [], 960000, 0⟩).overflowCount = 0 ∧
    (handleOverflow^[10] ⟨false, 0, 0, [], [], 960000, 0⟩).ringCapacity = 960000 ∧
    ((ProcessAudioBuffer ⟨false, 0, 0, [], [], 960000, 0⟩ [0, 0] 0).1.ringCapacity = 960000 ∨
      ((ProcessAudioBuffer ⟨false, 0, 0, [], [], 960000, 0⟩ [0, 0] 0).1.ringCapacity =
          960000 + kRingBufferSizeIncrement ∧
        (ProcessAudioBuffer ⟨false, 0, 0, [], [], 960000, 0⟩ [0, 0] 0).1.overflowCount = 0 ∧
        10 ≤ (⟨false, 0, 0, [], [], 960000, 0⟩ : TranscriberState).overflowCount)) :=
  ⟨rfl,
    (spec_C6_overflow_growth ⟨false, 0, 0, [], [], 960000, 0⟩ rfl).1,
    (spec_C6_overflow_growth ⟨false, 0, 0, [], [], 960000, 0⟩ rfl).2.1,
    (spec_C6_overflow_growth ⟨false, 0, 0, [], [], 960000, 0⟩ rfl).2.2.1 10 (by norm_num),
    (spec_C6_overflow_growth ⟨false, 0, 0, [], [], 960000, 0⟩ rfl).2.2.2
      ⟨false, 0, 0, [], [], 960000, 0⟩ [0, 0] 0⟩

/-- Claim C7: a TranscribeAudioNonBlocking call that finds the single-flight
guard already set returns false, leaves the guard set for the owning call and
never invokes whisper_full; and every call that acquired the guard clears it
on exit along every path (the one early return that skips the reset, lines
145-148, is unreachable because the context was already checked at line 72). -/
theorem spec_C7_single_flight :
    (∀ (ctx : Bool) (pcm : List (Option ℚ)) (r : ℤ),
      TranscribeAudioNonBlocking true ctx pcm r =
        ⟨false, true, false⟩) ∧
    (∀ (ctx : Bool) (pcm : List (Option ℚ)) (r : ℤ),
      (TranscribeAudioNonBlocking false ctx pcm r).processingActiveAfter = false) := by
  constructor
  · intro ctx pcm r
    rfl
  · intro ctx pcm r
    unfold TranscribeAudioNonBlocking
    rw [if_neg (by simp)]
    split_ifs <;> simp_all

/-- Claim C8: TranscribeAudioNonBlocking rejects, returning false without
invoking whisper_full, every input whose sample count lies outside
the range kSampleRate to kTargetSamples (16000 to 384000 samples, one to
twenty-four seconds at 16 kHz) and every input containing at least one sample
that is NaN or has absolute value above one. -/
theorem spec_C8_input_validation (g ctx : Bool) (pcm : List (Option ℚ)) (r : ℤ)
    (h : pcm.length < kSampleRate ∨ kTargetSamples < pcm.length ∨
      pcm.any sampleInvalid = true) :
    (TranscribeAudioNonBlocking g ctx pcm r).retval = false ∧
      (TranscribeAudioNonBlocking g ctx pcm r).whisperFullCalled = false := by
  unfold TranscribeAudioNonBlocking
  split_ifs <;> simp_all

/-- Witness for claim C8 at a one-sample NaN input. -/
theorem spec_C8_input_validation_witness :
    (([none] : List (Option ℚ)).length < kSampleRate ∨
      kTargetSamples < ([none] : List (Option ℚ)).length ∨
      ([none] : List (Option ℚ)).any sampleInvalid = true) ∧
    (TranscribeAudioNonBlocking false true [none] 0).retval = false ∧
      (TranscribeAudioNonBlocking false true [none] 0).whisperFullCalled = false :=
  ⟨Or.inl (by norm_num [kSampleRate]),
    spec_C8_input_validation false true [none] 0 (Or.inl (by norm_num [kSampleRate]))⟩

/-- Claim C9: the dispatched task decodes two bytes per sample as
little-endian signed 16-bit and normalizes by 32768: the code's cast-and-or
decode agrees with the spec reading for every byte pair, the byte pair
0x00 0x80 maps to exactly -1, and 0xFF 0x7F maps to 32767 / 32768. -/
theorem spec_C9_pcm_conversion (lo hi : ℕ) (hlo : lo < 256) (hhi : hi < 256) :
    normalizeSample (decodeSampleLE lo hi) = (specSampleLE lo hi : ℚ) / 32768 ∧
      pcmf32FromBytes [lo, hi] = [normalizeSample (decodeSampleLE lo hi)] ∧
      normalizeSample (decodeSampleLE 0 128) = -1 ∧
      normalizeSample (decodeSampleLE 255 127) = 32767 / 32768 := by
  refine ⟨?_, rfl, ?_, ?_⟩
  · rw [decodeSampleLE_eq_spec lo hi hlo hhi, normalizeSample]
  · rw [show decodeSampleLE 0 128 = -32768 by decide, normalizeSample]
    norm_num
  · rw [show decodeSampleLE 255 127 = 32767 by decide, normalizeSample]
    norm_num

/-- Witness for claim C9 at the byte pair 0x00 0x80. -/
theorem spec_C9_pcm_conversion_witness :
    ((0 : ℕ) < 256 ∧ (128 : ℕ) < 256) ∧
    (normalizeSample (decodeSampleLE 0 128) = (specSampleLE 0 128 : ℚ) / 32768 ∧
      pcmf32FromBytes [0, 128] = [normalizeSample (decodeSampleLE 0 128)] ∧
      normalizeSample (decodeSampleLE 0 128) = -1 ∧
      normalizeSample (decodeSampleLE 255 127) = 32767 / 32768) :=
  ⟨⟨by norm_num, by norm_num⟩,
    spec_C9_pcm_conversion 0 128 (by norm_num) (by norm_num)⟩

/-- Claim C10 evidence: RunProcessingThread returns true on every path, also
when the running flag is already clear, in which case it leaves the ring
untouched and dispatches nothing.  The thread body spawned by Start is
`while (RunProcessingThread()) {}`, so its loop condition never becomes false:
contrary to the claim, the consumer thread never exits once started and Stop's
join cannot complete.  The claim matches the evident intent (the return value
exists to steer that loop and the spec says the loop terminates), so this is
a code bug: line 250 returns true unconditionally instead of reporting
whether the loop should continue. -/
theorem spec_C10_loop_never_exits (running : Bool) (ring : List ℕ) :
    (RunProcessingThread running ring).2.2 = true ∧
      RunProcessingThread false ring = (ring, [], true) := by
  constructor
  · unfold RunProcessingThread
    split_ifs <;> rfl
  · unfold RunProcessingThread
    rw [if_neg (by simp)]

end WhisperSpec
